import Mathlib

/-!
Verification development for the provider-abstraction / streaming-response
layer of the chatui repository.  Each definition below is a shallow
embedding of one source function; the theorems at the end of the file
settle the behavioural claims about that layer.

JavaScript strings are modelled as Lean `String`s; the handful of string
primitives the source uses (`toLowerCase`, `includes`, `split`,
`startsWith`, `slice`) are given executable models over the character
list.  JavaScript `unknown` caught values are modelled by `JSValue`
(either an `Error` carrying a message, or some non-`Error` value), and a
JS falsiness test on a string (`if (s)`) is modelled by comparison with
the empty string.
-/

/-- Model of `s.toLowerCase()`: lower-case the characters of `s`. -/
def lowerChars (s : String) : List Char :=
  s.toList.map Char.toLower

/-- Substring containment on character lists, the semantics of JavaScript
`String.prototype.includes`. -/
def listIncludes (hay pat : List Char) : Bool :=
  match hay with
  | [] => pat.isEmpty
  | _ :: t => pat.isPrefixOf hay || listIncludes t pat

/-- `hay.includes(pat)` where `hay` is an already-lower-cased character list. -/
def includes (hay : List Char) (pat : String) : Bool :=
  listIncludes hay pat.toList

/-- `s.includes(pat)` on strings (used for model-id pattern matching). -/
def strIncludes (s pat : String) : Bool :=
  listIncludes s.toList pat.toList

/-- A JavaScript value caught by a `catch` clause: either an `Error`
object carrying a message, or any non-`Error` value. -/
inductive JSValue where
  | error (message : String)
  | nonError
deriving Repr, DecidableEq

namespace ErrorHandler

/-- `APIError` from `src/app/lib/error-handler.ts`.  `code` and
`suggestedAction` are optional fields there. -/
structure APIError where
  message : String
  code : Option String
  retryable : Bool
  suggestedAction : Option String
deriving Repr, DecidableEq

/-- Embedding of `parseAPIError` (src/app/lib/error-handler.ts, lines
12-119): a prioritized keyword scan over the lower-cased error message. -/
def parseAPIError (error : JSValue) : APIError :=
  let defaultError : APIError :=
    { message := "An unexpected error occurred"
      code := none
      retryable := true
      suggestedAction := some "Please try again" }
  match error with
  | .nonError => defaultError
  | .error msg =>
    let errorMessage := lowerChars msg
    if includes errorMessage "fetch" || includes errorMessage "network" then
      { message := "Network connection error"
        code := some "NETWORK_ERROR"
        retryable := true
        suggestedAction := some "Check your internet connection and try again" }
    else if includes errorMessage "api key" || includes errorMessage "unauthorized"
        || includes errorMessage "401" then
      { message := "Invalid or missing API key"
        code := some "AUTH_ERROR"
        retryable := false
        suggestedAction := some "Please check your API keys in Settings" }
    else if includes errorMessage "rate limit" || includes errorMessage "429"
        || includes errorMessage "too many requests" then
      { message := "Rate limit exceeded"
        code := some "RATE_LIMIT"
        retryable := true
        suggestedAction := some "Please wait a moment before trying again" }
    else if includes errorMessage "model" || includes errorMessage "404"
        || includes errorMessage "not found" then
      { message := "Model not found or unavailable"
        code := some "MODEL_ERROR"
        retryable := false
        suggestedAction := some "Try selecting a different model in the chat header" }
    else if includes errorMessage "timeout" || includes errorMessage "timed out" then
      { message := "Request timed out"
        code := some "TIMEOUT"
        retryable := true
        suggestedAction := some "The request took too long. Try again or simplify your message" }
    else if includes errorMessage "500" || includes errorMessage "server error" then
      { message := "Server error"
        code := some "SERVER_ERROR"
        retryable := true
        suggestedAction := some "The server encountered an error. Please try again" }
    else if includes errorMessage "context" || includes errorMessage "token"
        || includes errorMessage "too long" then
      { message := "Message too long"
        code := some "CONTEXT_LENGTH"
        retryable := false
        suggestedAction := some "Your conversation is too long. Try starting a new chat" }
    else
      { message := if msg = "" then defaultError.message else msg
        code := none
        retryable := true
        suggestedAction := some "Please try again" }

/-- Observable trace of one `retryWithBackoff` run: the value returned or
error thrown, how many times `fn` was invoked, the `onRetry(attempt,
error)` invocations in order, and the backoff waits in order. -/
structure RetryTrace (V : Type) where
  result : Except JSValue V
  calls : Nat
  onRetryEvents : List (Nat × JSValue)
  waits : List Nat
deriving Repr

/-- One iteration of the `for (attempt = 0; attempt <= maxRetries;
attempt++)` loop of `retryWithBackoff` (src/app/lib/error-handler.ts,
lines 142-170).  `remaining = maxRetries - attempt`, so `remaining = 0`
is the `attempt === maxRetries` break; a non-retryable classification
also breaks; both breaks rethrow `lastError`, the error of the current
(final) invocation.  `fn k` is the outcome of the k-th invocation of the
operation. -/
def retryGo {V : Type} (fn : Nat → Except JSValue V) (initialDelay maxDelay : Nat) :
    Nat → Nat → RetryTrace V
  | attempt, remaining =>
    match fn attempt, remaining with
    | .ok v, _ => { result := .ok v, calls := 1, onRetryEvents := [], waits := [] }
    | .error e, 0 => { result := .error e, calls := 1, onRetryEvents := [], waits := [] }
    | .error e, r + 1 =>
      if (parseAPIError e).retryable then
        let delay := min (initialDelay * 2 ^ attempt) maxDelay
        let rest := retryGo fn initialDelay maxDelay (attempt + 1) r
        { result := rest.result
          calls := rest.calls + 1
          onRetryEvents := (attempt + 1, e) :: rest.onRetryEvents
          waits := delay :: rest.waits }
      else { result := .error e, calls := 1, onRetryEvents := [], waits := [] }

/-- Embedding of `retryWithBackoff(fn, {maxRetries, initialDelay,
maxDelay, onRetry})` (src/app/lib/error-handler.ts, lines 124-173); the
source defaults are `maxRetries = 3`, `initialDelay = 1000`,
`maxDelay = 10000`. -/
def retryWithBackoff {V : Type} (fn : Nat → Except JSValue V)
    (maxRetries initialDelay maxDelay : Nat) : RetryTrace V :=
  retryGo fn initialDelay maxDelay 0 maxRetries

end ErrorHandler

namespace StreamReassembler

/-- The internal normalized stream-event shape: a text delta or the
end-of-stream marker. -/
inductive StreamEvent where
  | textDelta (text : String)
  | done
deriving Repr, DecidableEq

/-- Observable state of the reassembly loop in `handleSubmit`
(src/app/components/chat/chat-interface.tsx, lines 90-115): the running
`assistantMessage` accumulator and the successive values passed to the
`updateMessage` on-update callback, in order. -/
structure ReassemblyState where
  assistantMessage : String
  updates : List String
deriving Repr, DecidableEq

/-- Processing of one normalized stream event by the loop body: a text
delta with truthy (non-empty) content is appended to the accumulator and
the new accumulator value is passed to the callback (`if (json.content)
{ assistantMessage += json.content; updateMessage(...) }`); an empty
delta is falsy and skipped; `[DONE]` is skipped (`continue`). -/
def processEvent (st : ReassemblyState) (ev : StreamEvent) : ReassemblyState :=
  match ev with
  | .textDelta text =>
    if text = "" then st
    else
      let assistantMessage := st.assistantMessage ++ text
      { assistantMessage := assistantMessage
        updates := st.updates ++ [assistantMessage] }
  | .done => st

/-- Run the reassembly loop over a whole event sequence, starting from
the empty accumulator (`let assistantMessage = ""`). -/
def reassemble (events : List StreamEvent) : ReassemblyState :=
  events.foldl processEvent { assistantMessage := "", updates := [] }

/-- Spec-side definition (4.3 / testable property 2): the concatenation
of all delta texts in order. -/
def joinTexts : List String → String
  | [] => ""
  | t :: ts => t ++ joinTexts ts

/-- Spec-side definition (4.3 / testable property 2): the sequence of
intermediate prefixes exposed to the callback, one per delta, in arrival
order. -/
def deltaPrefixes : List String → List String
  | [] => []
  | t :: ts => t :: (deltaPrefixes ts).map (fun s => t ++ s)

/-- Model of JavaScript `chunk.split("\n")` over the character list:
consecutive separators yield empty fields and a trailing separator
yields a trailing empty field. -/
def splitLines (cs : List Char) : List (List Char) :=
  match cs with
  | [] => [[]]
  | c :: rest =>
    let r := splitLines rest
    if c = '\n' then [] :: r
    else
      match r with
      | [] => [[c]]
      | w :: ws => (c :: w) :: ws

/-- The gateway-format line handler of `handleSubmit`
(src/unnamed/part_003, lines 113-126): a line starting with `0:` appends
the remainder of the line (`line.slice(2)`) to the accumulator; any
other line is skipped. -/
def processLine (acc : String) (line : List Char) : String :=
  if ("0:".toList).isPrefixOf line then acc ++ String.mk (line.drop 2) else acc

/-- One network read of `handleSubmit` (src/unnamed/part_003, lines
106-127): the decoded chunk is split on newlines — with no carry-over of
an incomplete trailing fragment — and each resulting line is handled by
`processLine`. -/
def processChunk (acc : String) (chunk : String) : String :=
  (splitLines chunk.toList).foldl processLine acc

/-- The whole read loop over a partition of the response text into
network chunks. -/
def processStream (chunks : List String) : String :=
  chunks.foldl processChunk ""

end StreamReassembler

namespace ChatRoute

/-- The `message` property read off a caught value (`error.message`); a
non-`Error` value has no message. -/
def messageOf : JSValue → String
  | .error m => m
  | .nonError => ""

/-- A server-sent frame of the chat route, written as
`data: <payload>\n\n` on the wire: a JSON object with a `content` field,
a JSON object with an `error` field, or the literal `[DONE]`. -/
inductive Frame where
  | content (text : String)
  | errorFrame (message : String)
  | doneMarker
deriving Repr, DecidableEq

/-- Frames enqueued by the `start(controller)` body of `POST /api/chat`
(src/app/app/api/chat/route.ts, lines 32-51).  The provider loop
enqueues one content frame per truthy delta (`if (content)`); if the
provider call throws after emitting `deltas`, the `catch` enqueues a
single frame carrying only `error.message`; the `finally` always
enqueues `[DONE]`.  The HTTP response remains the 200 stream in every
case. -/
def routeStreamFrames (deltas : List String) (failure : Option JSValue) : List Frame :=
  (deltas.filter (fun c => ¬ c = "")).map Frame.content
    ++ (match failure with
        | some e => [Frame.errorFrame (messageOf e)]
        | none => [])
    ++ [Frame.doneMarker]

/-- The client frame loop of `handleSubmit`
(src/app/components/chat/chat-interface.tsx, lines 97-114), at frame
granularity: `[DONE]` is skipped, a frame whose parsed `content` field
is truthy is appended, and a frame without a truthy `content` field —
in particular an error frame — is ignored. -/
def clientConsumeFrames (frames : List Frame) : String :=
  frames.foldl
    (fun acc f =>
      match f with
      | .content t => if t = "" then acc else acc ++ t
      | .errorFrame _ => acc
      | .doneMarker => acc)
    ""

/-- Caller-visible outcome of one streamed completion whose HTTP
response was the route's 200 stream: the client loop never throws, so
the caller receives the accumulated message as a success. -/
def completionOutcome (deltas : List String) (failure : Option JSValue) :
    Except JSValue String :=
  .ok (clientConsumeFrames (routeStreamFrames deltas failure))

/-- The error `handleSubmit` throws in place of a non-OK response
(src/app/components/chat/chat-interface.tsx, lines 67-69): a fresh
`Error` with a constant message, not the original failure. -/
def fetchFailureOutcome : JSValue := JSValue.error "Failed to get response"

end ChatRoute

namespace ModelCatalog

/-- `Model` from src/app/types/index.ts.  The provider tag is kept as a
string because the LiteLLM adapter also produces `"litellm"`-tagged
models. -/
structure Model where
  id : String
  name : String
  provider : String
  contextWindow : Nat
deriving Repr, DecidableEq

/-- `AVAILABLE_MODELS` from src/app/types/index.ts (lines 52-97). -/
def AVAILABLE_MODELS : List Model :=
  [ { id := "gpt-4-turbo-preview", name := "GPT-4 Turbo",
      provider := "openai", contextWindow := 128000 },
    { id := "gpt-4", name := "GPT-4",
      provider := "openai", contextWindow := 8192 },
    { id := "gpt-3.5-turbo", name := "GPT-3.5 Turbo",
      provider := "openai", contextWindow := 16385 },
    { id := "claude-3-5-sonnet-20241022", name := "Claude 3.5 Sonnet",
      provider := "anthropic", contextWindow := 200000 },
    { id := "claude-3-opus-20240229", name := "Claude 3 Opus",
      provider := "anthropic", contextWindow := 200000 },
    { id := "claude-3-sonnet-20240229", name := "Claude 3 Sonnet",
      provider := "anthropic", contextWindow := 200000 },
    { id := "claude-3-haiku-20240307", name := "Claude 3 Haiku",
      provider := "anthropic", contextWindow := 200000 } ]

/-- A raw entry of the gateway discovery response
(`LiteLLMModel` in src/app/lib/adapters/litellm-adapter.ts); the
`object`/`created` fields are never read by the adapter. -/
structure LiteLLMModel where
  id : String
  ownedBy : Option String
deriving Repr, DecidableEq

/-- First character upper-cased, rest unchanged:
`word.charAt(0).toUpperCase() + word.slice(1)`. -/
def capitalizeWord (w : List Char) : List Char :=
  match w with
  | [] => []
  | c :: rest => c.toUpper :: rest

/-- Model of `modelId.split(/[-_\/]/)`. -/
def splitDelims (cs : List Char) : List (List Char) :=
  match cs with
  | [] => [[]]
  | c :: rest =>
    let r := splitDelims rest
    if c = '-' ∨ c = '_' ∨ c = '/' then [] :: r
    else
      match r with
      | [] => [[c]]
      | w :: ws => (c :: w) :: ws

/-- Model of `words.join(" ")`. -/
def joinWithSpace : List (List Char) → List Char
  | [] => []
  | [w] => w
  | w :: ws => w ++ ' ' :: joinWithSpace ws

/-- `generateModelName` (src/app/lib/adapters/litellm-adapter.ts, lines
180-207); the `ownedBy` parameter is received but never read by the
source body. -/
def generateModelName (modelId : String) (ownedBy : String) : String :=
  if strIncludes modelId "gpt-4-turbo" then "GPT-4 Turbo"
  else if strIncludes modelId "gpt-4o" then "GPT-4o"
  else if modelId = "gpt-4" then "GPT-4"
  else if strIncludes modelId "gpt-3.5-turbo" then "GPT-3.5 Turbo"
  else if strIncludes modelId "claude-3-5-sonnet" then "Claude 3.5 Sonnet"
  else if strIncludes modelId "claude-3-opus" then "Claude 3 Opus"
  else if strIncludes modelId "claude-3-sonnet" then "Claude 3 Sonnet"
  else if strIncludes modelId "claude-3-haiku" then "Claude 3 Haiku"
  else if strIncludes modelId "gemini-pro" then "Gemini Pro"
  else if strIncludes modelId "gemini-1.5-pro" then "Gemini 1.5 Pro"
  else if strIncludes modelId "gemini-1.5-flash" then "Gemini 1.5 Flash"
  else if strIncludes modelId "llama-2-70b" then "Llama 2 70B"
  else if strIncludes modelId "llama-2-13b" then "Llama 2 13B"
  else if strIncludes modelId "llama-2-7b" then "Llama 2 7B"
  else if strIncludes modelId "llama-3" then "Llama 3"
  else if strIncludes modelId "mistral" then "Mistral"
  else if strIncludes modelId "mixtral" then "Mixtral"
  else String.mk (joinWithSpace ((splitDelims modelId.toList).map capitalizeWord))

/-- `estimateContextWindow` (src/app/lib/adapters/litellm-adapter.ts,
lines 209-237). -/
def estimateContextWindow (modelId : String) : Nat :=
  if strIncludes modelId "gpt-4-turbo" || strIncludes modelId "gpt-4o" then 128000
  else if modelId = "gpt-4" then 8192
  else if strIncludes modelId "gpt-3.5-turbo-16k" then 16385
  else if strIncludes modelId "gpt-3.5-turbo" then 4096
  else if strIncludes modelId "claude-3" then 200000
  else if strIncludes modelId "claude-2" then 100000
  else if strIncludes modelId "gemini-1.5-pro" then 1000000
  else if strIncludes modelId "gemini-pro" then 32000
  else if strIncludes modelId "llama" then 4096
  else if strIncludes modelId "mistral" || strIncludes modelId "mixtral" then 32000
  else 4096

/-- `transformModel` (src/app/lib/adapters/litellm-adapter.ts, lines
162-178); `litellmModel.owned_by || "unknown"` treats a missing or empty
value as falsy. -/
def transformModel (litellmModel : LiteLLMModel) : Model :=
  let modelId := litellmModel.id
  let ownedBy :=
    match litellmModel.ownedBy with
    | some s => if s = "" then "unknown" else s
    | none => "unknown"
  { id := modelId
    name := generateModelName modelId ownedBy
    provider := "litellm"
    contextWindow := estimateContextWindow modelId }

/-- The adapter's mutable cache (`cachedModels`, `cacheTimestamp`). -/
structure AdapterState where
  cachedModels : Option (List Model)
  cacheTimestamp : Nat
deriving Repr, DecidableEq

/-- `CACHE_DURATION_MS = 5 * 60 * 1000` — the 5-minute TTL. -/
def CACHE_DURATION_MS : Nat := 5 * 60 * 1000

/-- Outcome of the network round itself: a parsed `data` array, or any
thrown failure (non-OK status, invalid body, network error, timeout). -/
inductive FetchOutcome where
  | success (data : List LiteLLMModel)
  | failure (err : JSValue)
deriving Repr

/-- The `try`/`catch` part of `fetchModels` (lines 108-159): a
successful round caches and returns the transformed list; a failure
serves the stale cache if one exists, else the empty list. -/
def attemptNetworkFetch (st : AdapterState) (now : Nat) (net : FetchOutcome) :
    List Model × AdapterState × Bool :=
  match net with
  | .success data =>
    let models := data.map transformModel
    (models, { cachedModels := some models, cacheTimestamp := now }, true)
  | .failure _ =>
    match st.cachedModels with
    | some c => (c, st, true)
    | none => ([], st, true)

/-- Embedding of `fetchModels` (src/app/lib/adapters/litellm-adapter.ts,
lines 95-160) as a state transformer.  The result triple is the returned
model list, the new cache state, and whether a network fetch was issued.
`now - st.cacheTimestamp` uses truncated subtraction, which agrees with
the JS comparison for every monotone clock. -/
def fetchModels (st : AdapterState) (configured : Bool) (now : Nat) (net : FetchOutcome) :
    List Model × AdapterState × Bool :=
  if configured then
    match st.cachedModels with
    | some c =>
      if now - st.cacheTimestamp < CACHE_DURATION_MS then (c, st, false)
      else attemptNetworkFetch st now net
    | none => attemptNetworkFetch st now net
  else ([], st, false)

/-- One step of `new Map(allModels.map((model) => [model.id, model]))`:
inserting under an existing key keeps the key's position but overwrites
the stored value; a new key is appended. -/
def jsMapInsert (m : List Model) (x : Model) : List Model :=
  if m.any (fun y => y.id == x.id) then m.map (fun y => if y.id == x.id then x else y)
  else m ++ [x]

/-- `Array.from(new Map(allModels.map((model) => [model.id,
model])).values())` (src/unnamed/part_000, lines 48-50). -/
def dedupById (l : List Model) : List Model :=
  l.foldl jsMapInsert []

/-- The sort comparator of the models route (lines 53-58), by provider
then name; `localeCompare` is modelled as code-point comparison. -/
def modelLe (a b : Model) : Bool :=
  if a.provider == b.provider then compare a.name b.name ≠ Ordering.gt
  else compare a.provider b.provider ≠ Ordering.gt

/-- `uniqueModels.sort(...)` — a stable sort under the comparator. -/
def sortModels (l : List Model) : List Model :=
  l.mergeSort modelLe

/-- `allModels` in `GET /api/models` (src/unnamed/part_000, lines
26-45): built-ins first, then the gateway models appended only when the
adapter returned a non-empty list. -/
def mergedCatalog (litellmModels : List Model) : List Model :=
  if litellmModels.length > 0 then AVAILABLE_MODELS ++ litellmModels
  else AVAILABLE_MODELS

/-- The model list returned by `GET /api/models` (src/unnamed/part_000,
lines 24-68) given the list the LiteLLM adapter produced (empty when the
gateway is unconfigured, returned no models, or failed with no cache):
merge, dedup by id, sort. -/
def modelsGET (litellmModels : List Model) : List Model :=
  sortModels (dedupById (mergedCatalog litellmModels))

end ModelCatalog

namespace HTTPClient

/-- `LiteLLMError` as produced by `parseError`
(src/app/lib/litellm/http-client.ts): every field below is assigned on
every path. -/
structure LiteLLMError where
  message : String
  code : String
  status : Nat
  retryable : Bool
  suggestedAction : String
deriving Repr, DecidableEq

/-- Embedding of `parseError(response)` (src/app/lib/litellm/http-client.ts,
lines 129-180).  `bodyMessage`/`bodyCode` stand for the first truthy of
`errorBody.error?.message || errorBody.message` (resp. the codes); they
are the empty string when the body failed to parse or the fields are
falsy, in which case the `HTTP <status>` defaults stand. -/
def parseError (status : Nat) (statusText : String) (bodyMessage bodyCode : String) :
    LiteLLMError :=
  let message :=
    if bodyMessage = "" then "HTTP " ++ toString status ++ ": " ++ statusText
    else bodyMessage
  let code :=
    if bodyCode = "" then "HTTP_" ++ toString status
    else bodyCode
  let rs : Bool × String :=
    if status = 401 then (false, "Check your LiteLLM master key is valid")
    else if status = 403 then (false, "You do not have permission to perform this action")
    else if status = 404 then (false, "The requested resource was not found")
    else if status = 429 then (true, "Rate limit exceeded. Wait a moment and try again")
    else if status = 500 ∨ status = 502 ∨ status = 503 ∨ status = 504 then
      (true, "LiteLLM server error. Try again in a moment")
    else (decide (500 ≤ status), "An error occurred. Please try again")
  { message := message
    code := code
    status := status
    retryable := rs.1
    suggestedAction := rs.2 }

end HTTPClient

example :
    (ErrorHandler.parseAPIError (.error "Network request failed")).code
      = some "NETWORK_ERROR" := by decide

example :
    StreamReassembler.processStream ["0:Hel", "lo\n"] = "Hel" := by decide

example :
    StreamReassembler.processStream ["0:Hello\n"] = "Hello" := by decide

example :
    StreamReassembler.reassemble
      [.textDelta "Hel", .textDelta "lo, ", .textDelta "world", .done]
      = { assistantMessage := "Hello, world"
          updates := ["Hel", "Hello, ", "Hello, world"] } := by decide

/-! ### Shared helper lemmas -/

/-- The classifier marks exactly the AUTH, MODEL and CONTEXT_LENGTH
branches non-retryable. -/
lemma parseAPIError_retryable_iff (v : JSValue) :
    (ErrorHandler.parseAPIError v).retryable = false ↔
      ((ErrorHandler.parseAPIError v).code = some "AUTH_ERROR" ∨
        (ErrorHandler.parseAPIError v).code = some "MODEL_ERROR" ∨
        (ErrorHandler.parseAPIError v).code = some "CONTEXT_LENGTH") := by
  cases v with
  | nonError => simp [ErrorHandler.parseAPIError]
  | error msg =>
    simp only [ErrorHandler.parseAPIError]
    repeat' split
    all_goals simp

/-- A NETWORK_ERROR classification is retryable. -/
lemma parseAPIError_retryable_of_network (e : JSValue)
    (h : (ErrorHandler.parseAPIError e).code = some "NETWORK_ERROR") :
    (ErrorHandler.parseAPIError e).retryable = true := by
  cases hb : (ErrorHandler.parseAPIError e).retryable with
  | false =>
    rcases (parseAPIError_retryable_iff e).mp hb with h1 | h1 | h1 <;>
      rw [h] at h1 <;> simp at h1
  | true => rfl

/-- Running the retry loop against an operation that throws the same
retryable error on every invocation: every attempt is consumed, one call
per attempt, and the error itself is rethrown. -/
lemma retryGo_const_error {V : Type} (e : JSValue)
    (hr : (ErrorHandler.parseAPIError e).retryable = true) (d m : Nat) :
    ∀ remaining attempt,
      (ErrorHandler.retryGo (V := V) (fun _ => .error e) d m attempt remaining).calls
          = remaining + 1 ∧
      (ErrorHandler.retryGo (V := V) (fun _ => .error e) d m attempt remaining).result
          = .error e := by
  intro remaining
  induction remaining with
  | zero => intro attempt; simp [ErrorHandler.retryGo]
  | succ r ih =>
    intro attempt
    simp [ErrorHandler.retryGo, hr, (ih (attempt + 1)).1, (ih (attempt + 1)).2]

example :
    (ErrorHandler.parseAPIError (.error "404")).code = some "MODEL_ERROR" := by decide

example :
    (ErrorHandler.retryWithBackoff (fun _ => (.error (.error "network") : Except JSValue Nat))
      3 1000 10000).calls = 4 := by decide

/-! ### Claim theorems: error classifier and retry orchestrator -/

/-- C5: `parseAPIError` returns `retryable = false` exactly when the
classified kind is AUTH_ERROR, MODEL_ERROR or CONTEXT_LENGTH; every
other classification — including the UNKNOWN default produced for
non-`Error` inputs — is retryable. -/
theorem c5_nonretryable_kinds :
    (∀ v : JSValue,
      (ErrorHandler.parseAPIError v).retryable = false ↔
        ((ErrorHandler.parseAPIError v).code = some "AUTH_ERROR" ∨
          (ErrorHandler.parseAPIError v).code = some "MODEL_ERROR" ∨
          (ErrorHandler.parseAPIError v).code = some "CONTEXT_LENGTH")) ∧
    (ErrorHandler.parseAPIError JSValue.nonError).retryable = true :=
  ⟨parseAPIError_retryable_iff, by decide⟩

/-- C3: when every invocation of the operation throws the same
NETWORK_ERROR-shaped (retryable) error, `retryWithBackoff` with
`maxRetries = 3` invokes the operation exactly 4 times and rethrows the
very error the operation produced. -/
theorem c3_retry_exhaustion {V : Type} (fn : Nat → Except JSValue V) (e : JSValue)
    (hfn : ∀ k, fn k = .error e)
    (hnet : (ErrorHandler.parseAPIError e).code = some "NETWORK_ERROR") :
    (ErrorHandler.retryWithBackoff fn 3 1000 10000).calls = 4 ∧
    (ErrorHandler.retryWithBackoff fn 3 1000 10000).result = .error e := by
  have hfe : fn = fun _ => .error e := funext hfn
  subst hfe
  have h :=
    retryGo_const_error (V := V) e (parseAPIError_retryable_of_network e hnet) 1000 10000 3 0
  exact ⟨h.1, h.2⟩

/-- Witness for C3 at a concrete always-failing operation. -/
theorem c3_retry_exhaustion_witness :
    (∀ k : Nat,
      (fun _ => (.error (JSValue.error "network down") : Except JSValue Nat)) k
        = .error (JSValue.error "network down")) ∧
    (ErrorHandler.parseAPIError (JSValue.error "network down")).code
        = some "NETWORK_ERROR" ∧
    ((ErrorHandler.retryWithBackoff
        (fun _ => (.error (JSValue.error "network down") : Except JSValue Nat))
        3 1000 10000).calls = 4 ∧
      (ErrorHandler.retryWithBackoff
        (fun _ => (.error (JSValue.error "network down") : Except JSValue Nat))
        3 1000 10000).result = .error (JSValue.error "network down")) :=
  ⟨fun _ => rfl, by decide,
    c3_retry_exhaustion _ (JSValue.error "network down") (fun _ => rfl) (by decide)⟩

/-- C4: when the first invocation throws an AUTH_ERROR-shaped
(non-retryable) error, `retryWithBackoff` invokes the operation exactly
once, rethrows that original error, performs no backoff wait and never
invokes the `onRetry` hook. -/
theorem c4_nonretryable_single_call {V : Type} (fn : Nat → Except JSValue V) (e : JSValue)
    (h0 : fn 0 = .error e)
    (hauth : (ErrorHandler.parseAPIError e).code = some "AUTH_ERROR") :
    (ErrorHandler.retryWithBackoff fn 3 1000 10000).calls = 1 ∧
    (ErrorHandler.retryWithBackoff fn 3 1000 10000).result = .error e ∧
    (ErrorHandler.retryWithBackoff fn 3 1000 10000).onRetryEvents = [] ∧
    (ErrorHandler.retryWithBackoff fn 3 1000 10000).waits = [] := by
  have hnr : (ErrorHandler.parseAPIError e).retryable = false :=
    (parseAPIError_retryable_iff e).mpr (Or.inl hauth)
  simp [ErrorHandler.retryWithBackoff, ErrorHandler.retryGo, h0, hnr]

/-- Witness for C4 at a concrete operation failing with an auth error. -/
theorem c4_nonretryable_single_call_witness :
    ((fun _ => (.error (JSValue.error "unauthorized") : Except JSValue Nat)) 0
        = .error (JSValue.error "unauthorized")) ∧
    (ErrorHandler.parseAPIError (JSValue.error "unauthorized")).code
        = some "AUTH_ERROR" ∧
    ((ErrorHandler.retryWithBackoff
        (fun _ => (.error (JSValue.error "unauthorized") : Except JSValue Nat))
        3 1000 10000).calls = 1 ∧
      (ErrorHandler.retryWithBackoff
        (fun _ => (.error (JSValue.error "unauthorized") : Except JSValue Nat))
        3 1000 10000).result = .error (JSValue.error "unauthorized") ∧
      (ErrorHandler.retryWithBackoff
        (fun _ => (.error (JSValue.error "unauthorized") : Except JSValue Nat))
        3 1000 10000).onRetryEvents = [] ∧
      (ErrorHandler.retryWithBackoff
        (fun _ => (.error (JSValue.error "unauthorized") : Except JSValue Nat))
        3 1000 10000).waits = []) :=
  ⟨rfl, by decide,
    c4_nonretryable_single_call _ (JSValue.error "unauthorized") rfl (by decide)⟩

/-- C6 counterexample: the message `"404"` contains neither `"model"`
nor matches any earlier rule, yet the classifier returns MODEL_ERROR —
the source combines the three keywords with OR, so `"404"` does not fall
through to the later rules as the claim states. -/
theorem c6_counterexample :
    includes (lowerChars "404") "model" = false ∧
    (ErrorHandler.parseAPIError (.error "404")).code = some "MODEL_ERROR" ∧
    (ErrorHandler.parseAPIError (.error "404")).retryable = false := by decide

/-- C6 amended: for a message not matched by the earlier network, auth
and rate-limit rules, the classifier returns MODEL_ERROR exactly when
the message contains "model" OR "404" OR "not found" (a disjunction, not
the claimed conjunction). -/
theorem c6_model_error_rule (msg : String)
    (hfetch : includes (lowerChars msg) "fetch" = false)
    (hnetwork : includes (lowerChars msg) "network" = false)
    (hapikey : includes (lowerChars msg) "api key" = false)
    (hunauth : includes (lowerChars msg) "unauthorized" = false)
    (h401 : includes (lowerChars msg) "401" = false)
    (hrate : includes (lowerChars msg) "rate limit" = false)
    (h429 : includes (lowerChars msg) "429" = false)
    (htoomany : includes (lowerChars msg) "too many requests" = false) :
    (ErrorHandler.parseAPIError (.error msg)).code = some "MODEL_ERROR" ↔
      (includes (lowerChars msg) "model" || includes (lowerChars msg) "404"
        || includes (lowerChars msg) "not found") = true := by
  simp only [ErrorHandler.parseAPIError, hfetch, hnetwork, hapikey, hunauth, h401,
    hrate, h429, htoomany]
  repeat' split
  all_goals simp_all

/-- Witness for the amended C6 at the message `"model xyz not found"`. -/
theorem c6_model_error_rule_witness :
    (includes (lowerChars "model xyz not found") "fetch" = false ∧
      includes (lowerChars "model xyz not found") "network" = false ∧
      includes (lowerChars "model xyz not found") "api key" = false ∧
      includes (lowerChars "model xyz not found") "unauthorized" = false ∧
      includes (lowerChars "model xyz not found") "401" = false ∧
      includes (lowerChars "model xyz not found") "rate limit" = false ∧
      includes (lowerChars "model xyz not found") "429" = false ∧
      includes (lowerChars "model xyz not found") "too many requests" = false) ∧
    ((ErrorHandler.parseAPIError (.error "model xyz not found")).code
        = some "MODEL_ERROR" ↔
      (includes (lowerChars "model xyz not found") "model"
        || includes (lowerChars "model xyz not found") "404"
        || includes (lowerChars "model xyz not found") "not found") = true) :=
  ⟨by decide,
    c6_model_error_rule "model xyz not found" (by decide) (by decide) (by decide)
      (by decide) (by decide) (by decide) (by decide) (by decide)⟩

/-! ### Claim theorems: stream reassembler -/

/-- Running the reassembly loop over a block of text deltas from an
arbitrary intermediate state: the accumulator grows by the concatenation
of the delta texts, and one callback fires per non-empty delta, carrying
the accumulator prefix current at that point. -/
lemma foldl_processEvent_textDeltas (texts : List String) (c : String) (cbs : List String) :
    (texts.map StreamReassembler.StreamEvent.textDelta).foldl
        StreamReassembler.processEvent ⟨c, cbs⟩ =
      ⟨c ++ StreamReassembler.joinTexts texts,
        cbs ++ (StreamReassembler.deltaPrefixes
          (texts.filter (fun t => ¬ t = ""))).map (fun p => c ++ p)⟩ := by
  induction texts generalizing c cbs with
  | nil => simp [StreamReassembler.joinTexts, StreamReassembler.deltaPrefixes]
  | cons t ts ih =>
    by_cases h : t = ""
    · subst h
      simp [StreamReassembler.processEvent, ih, StreamReassembler.joinTexts]
    · rw [List.map_cons, List.foldl_cons]
      have hpe : StreamReassembler.processEvent ⟨c, cbs⟩ (.textDelta t)
          = ⟨c ++ t, cbs ++ [c ++ t]⟩ := by
        simp [StreamReassembler.processEvent, h]
      rw [hpe, ih]
      simp [StreamReassembler.joinTexts, StreamReassembler.deltaPrefixes,
        List.filter_cons, h, List.map_map, Function.comp_def, String.append_assoc]

/-- C1: for every stream of text deltas consumed during a single
completion — the completion adapter only emits deltas with truthy,
i.e. non-empty, text (`if (content)` in both provider loops of
src/app/app/api/chat/route.ts) — the accumulator is append-only: each
delta appends its text, the on-update callback is invoked once per delta
with every intermediate prefix in arrival order, and the accumulator at
Done is the concatenation of all delta texts in order. -/
theorem c1_reassembler_prefixes (texts : List String) (h : ∀ t ∈ texts, t ≠ "") :
    (StreamReassembler.reassemble
        (texts.map StreamReassembler.StreamEvent.textDelta
          ++ [StreamReassembler.StreamEvent.done])).assistantMessage
        = StreamReassembler.joinTexts texts ∧
    (StreamReassembler.reassemble
        (texts.map StreamReassembler.StreamEvent.textDelta
          ++ [StreamReassembler.StreamEvent.done])).updates
        = StreamReassembler.deltaPrefixes texts := by
  have hfilter : texts.filter (fun t => ¬ t = "") = texts :=
    List.filter_eq_self.mpr (fun t ht => by simpa using h t ht)
  unfold StreamReassembler.reassemble
  rw [List.foldl_append, foldl_processEvent_textDeltas, hfilter]
  constructor
  · simp [StreamReassembler.processEvent]
  · simp [StreamReassembler.processEvent]

/-- Witness for C1 at the spec example `["Hel", "lo, ", "world"]`. -/
theorem c1_reassembler_prefixes_witness :
    (∀ t ∈ (["Hel", "lo, ", "world"] : List String), t ≠ "") ∧
    ((StreamReassembler.reassemble
        ((["Hel", "lo, ", "world"] : List String).map
            StreamReassembler.StreamEvent.textDelta
          ++ [StreamReassembler.StreamEvent.done])).assistantMessage
        = StreamReassembler.joinTexts ["Hel", "lo, ", "world"] ∧
      (StreamReassembler.reassemble
        ((["Hel", "lo, ", "world"] : List String).map
            StreamReassembler.StreamEvent.textDelta
          ++ [StreamReassembler.StreamEvent.done])).updates
        = StreamReassembler.deltaPrefixes ["Hel", "lo, ", "world"]) :=
  ⟨by decide, c1_reassembler_prefixes ["Hel", "lo, ", "world"] (by decide)⟩

/-- C2 (code bug): the read loop splits each network chunk on newlines
independently, with no buffering of an incomplete trailing line
fragment.  The gateway line `0:Hello` delivered as `"0:Hel"` then
`"lo\n"` reassembles to `"Hel"` — both the `"lo"` tail is dropped and
the fragment `"0:Hel"` was consumed early — whereas whole-line delivery
yields `"Hello"`. -/
theorem c2_chunk_boundary_divergence :
    StreamReassembler.processStream ["0:Hel", "lo\n"] = "Hel" ∧
    StreamReassembler.processStream ["0:Hello\n"] = "Hello" ∧
    StreamReassembler.processStream ["0:Hel", "lo\n"]
      ≠ StreamReassembler.processStream ["0:Hello\n"] := by decide

/-! ### Claim theorems: completion error propagation -/

/-- The client frame loop over a block of content frames appends exactly
the non-empty texts. -/
lemma clientStep_contents (l : List String) (acc : String) :
    List.foldl
      (fun a f =>
        match f with
        | ChatRoute.Frame.content t => if t = "" then a else a ++ t
        | ChatRoute.Frame.errorFrame _ => a
        | ChatRoute.Frame.doneMarker => a)
      acc (l.map ChatRoute.Frame.content)
      = acc ++ StreamReassembler.joinTexts (l.filter (fun t => ¬ t = "")) := by
  induction l generalizing acc with
  | nil => simp [StreamReassembler.joinTexts]
  | cons t ts ih =>
    by_cases h : t = ""
    · subst h
      simp [ih, StreamReassembler.joinTexts]
    · simp [h, ih, List.filter_cons, StreamReassembler.joinTexts, String.append_assoc]

/-- Whatever the provider outcome, the client consumes exactly the
truthy deltas the route emitted before the end of the stream; error
frames contribute nothing. -/
lemma clientConsumeFrames_routeStreamFrames (deltas : List String)
    (failure : Option JSValue) :
    ChatRoute.clientConsumeFrames (ChatRoute.routeStreamFrames deltas failure)
      = StreamReassembler.joinTexts (deltas.filter (fun c => ¬ c = "")) := by
  have hff : (deltas.filter (fun c => ¬ c = "")).filter (fun c => ¬ c = "")
      = deltas.filter (fun c => ¬ c = "") :=
    List.filter_eq_self.mpr (fun a ha => (List.mem_filter.mp ha).2)
  unfold ChatRoute.clientConsumeFrames ChatRoute.routeStreamFrames
  cases failure with
  | none =>
    rw [List.foldl_append, List.foldl_append, clientStep_contents, hff]
    simp
  | some e =>
    rw [List.foldl_append, List.foldl_append, clientStep_contents, hff]
    simp

/-- C9 counterexample: a provider error raised during the streamed
completion is not delivered to the caller at all — the call completes
as a success with empty content, so the original error can never reach
the caller's Error Classifier. -/
theorem c9_counterexample :
    ChatRoute.completionOutcome [] (some (JSValue.error "rate limit exceeded"))
        = Except.ok "" ∧
    ChatRoute.completionOutcome [] (some (JSValue.error "rate limit exceeded"))
        ≠ Except.error (JSValue.error "rate limit exceeded") :=
  ⟨rfl, fun h => nomatch h⟩

/-- C9 amended: a transport or provider error raised during the streamed
completion is not propagated un-wrapped: the route's `catch` converts it
into a `data:{"error": message}` frame followed by `[DONE]` on the 200
stream, the client loop ignores frames without a truthy `content` field,
and so the caller observes a successful completion containing exactly
the truthy deltas emitted before the failure — never the original error;
a non-OK response is likewise replaced by the fresh generic
`Error("Failed to get response")`. -/
theorem c9_error_swallowed (deltas : List String) (e : JSValue) :
    ChatRoute.completionOutcome deltas (some e)
        = Except.ok (StreamReassembler.joinTexts (deltas.filter (fun c => ¬ c = ""))) ∧
    ChatRoute.completionOutcome deltas (some e) ≠ Except.error e ∧
    ChatRoute.fetchFailureOutcome = JSValue.error "Failed to get response" := by
  refine ⟨?_, ?_, rfl⟩
  · exact congrArg Except.ok (clientConsumeFrames_routeStreamFrames deltas (some e))
  · simp [ChatRoute.completionOutcome]

/-! ### Claim theorems: gateway HTTP client error parsing -/

/-- Appending on the right cannot empty a non-empty string. -/
lemma append_left_ne_empty (a b : String) (h : a ≠ "") : a ++ b ≠ "" := by
  intro hc
  have hd := congrArg String.data hc
  rw [String.data_append] at hd
  exact h (String.ext (List.append_eq_nil.mp hd).1)

/-- C10: for every non-OK response, `parseError` marks the error
retryable exactly when the status is 429 or at least 500 (401, 403, 404
and every other sub-500 status are non-retryable), and the parsed error
always carries a non-empty message, code and suggested action. -/
theorem c10_parseError_retryable (status : Nat) (statusText bodyMessage bodyCode : String) :
    ((HTTPClient.parseError status statusText bodyMessage bodyCode).retryable = true ↔
      (status = 429 ∨ 500 ≤ status)) ∧
    (HTTPClient.parseError status statusText bodyMessage bodyCode).message ≠ "" ∧
    (HTTPClient.parseError status statusText bodyMessage bodyCode).code ≠ "" ∧
    (HTTPClient.parseError status statusText bodyMessage bodyCode).suggestedAction ≠ "" := by
  refine ⟨?_, ?_, ?_, ?_⟩
  · simp only [HTTPClient.parseError]
    split_ifs with h1 h2 h3 h4 h5 <;> simp_all <;> omega
  · simp only [HTTPClient.parseError]
    split_ifs with h1
    · exact append_left_ne_empty _ _
        (append_left_ne_empty _ _ (append_left_ne_empty _ _ (by decide)))
    · exact h1
  · simp only [HTTPClient.parseError]
    split_ifs with h1
    · exact append_left_ne_empty _ _ (by decide)
    · exact h1
  · simp only [HTTPClient.parseError]
    split_ifs <;> simp

/-! ### Claim theorems: model catalog -/

/-- Overwriting the value stored under `x.id` commutes with looking up
id `i`: the lookup finds `x` exactly when it previously found an entry
with id `x.id`. -/
lemma find?_map_replace (x : ModelCatalog.Model) (i : String)
    (m : List ModelCatalog.Model) :
    (m.map (fun y => if y.id == x.id then x else y)).find? (fun y => y.id == i)
      = if x.id == i then (m.find? (fun y => y.id == i)).map (fun _ => x)
        else m.find? (fun y => y.id == i) := by
  simp only [beq_iff_eq]
  induction m with
  | nil => by_cases h : x.id = i <;> simp [h]
  | cons z t ih =>
    by_cases hz : z.id = x.id
    · by_cases hi : x.id = i
      · simp [List.find?_cons, hz, hi, -List.find?_map]
      · have hzi : ¬ z.id = i := hz ▸ hi
        simp [List.find?_cons, hz, hi, hzi, ih, -List.find?_map]
    · by_cases hzi : z.id = i
      · have hi : ¬ x.id = i := fun h => hz (hzi.trans h.symm)
        simp [List.find?_cons, hz, hzi, hi, Ne.symm hi, -List.find?_map]
      · by_cases hi : x.id = i
        · simp only [hi] at ih
          simp [List.find?_cons, hz, hzi, ih, hi, -List.find?_map]
        · simp [List.find?_cons, hz, hzi, hi, ih, -List.find?_map]

/-- A JS-Map insertion step changes the lookup result exactly at the
inserted key, where the looked-up value becomes the new entry. -/
lemma find?_jsMapInsert (m : List ModelCatalog.Model) (x : ModelCatalog.Model)
    (i : String) :
    (ModelCatalog.jsMapInsert m x).find? (fun y => y.id == i)
      = if x.id = i then some x else m.find? (fun y => y.id == i) := by
  unfold ModelCatalog.jsMapInsert
  by_cases hany : m.any (fun y => y.id == x.id)
  · rw [if_pos hany, find?_map_replace]
    by_cases hi : x.id = i
    · obtain ⟨z, hzmem, hz⟩ := List.any_eq_true.mp hany
      have hzi : (fun y => y.id == i) z = true := by
        simp only [beq_iff_eq] at hz ⊢
        exact hz.trans hi
      have hsome : (m.find? (fun y => y.id == i)).isSome :=
        List.find?_isSome.mpr ⟨z, hzmem, hzi⟩
      obtain ⟨w, hw⟩ := Option.isSome_iff_exists.mp hsome
      simp [hi, hw]
    · simp [hi]
  · rw [if_neg hany, List.find?_append]
    simp only [List.any_eq_true, beq_iff_eq, not_exists] at hany
    by_cases hi : x.id = i
    · have hnone : m.find? (fun y => y.id == i) = none := by
        rw [List.find?_eq_none]
        intro a ha
        simp only [beq_iff_eq]
        intro hai
        exact hany a ⟨ha, hai.trans hi.symm⟩
      simp [hi, hnone, List.find?_cons]
    · simp [hi, List.find?_cons]

/-- Looking an id up in the deduplicated catalog yields the LAST
occurrence of that id in the input — JS `Map` construction overwrites
the stored value on every duplicate key. -/
lemma find?_dedupById (l : List ModelCatalog.Model) (i : String) :
    (ModelCatalog.dedupById l).find? (fun y => y.id == i)
      = (l.filter (fun y => y.id == i)).getLast? := by
  induction l using List.reverseRecOn with
  | nil => simp [ModelCatalog.dedupById]
  | append_singleton t x ih =>
    have hsnoc : ModelCatalog.dedupById (t ++ [x])
        = ModelCatalog.jsMapInsert (ModelCatalog.dedupById t) x := by
      unfold ModelCatalog.dedupById
      rw [List.foldl_append]
      rfl
    rw [hsnoc, find?_jsMapInsert, List.filter_append]
    by_cases hi : x.id = i
    · simp [hi, List.getLast?_concat]
    · simp [hi, ih]

/-- Deduplication preserves exactly the set of ids present. -/
lemma exists_id_dedupById (l : List ModelCatalog.Model) (i : String) :
    (∃ y ∈ ModelCatalog.dedupById l, y.id = i) ↔ ∃ y ∈ l, y.id = i := by
  constructor
  · rintro ⟨y, hy, hyi⟩
    have h1 : ((ModelCatalog.dedupById l).find? (fun y => y.id == i)).isSome :=
      List.find?_isSome.mpr ⟨y, hy, by simp [hyi]⟩
    rw [find?_dedupById] at h1
    obtain ⟨z, hz⟩ := List.exists_mem_of_ne_nil _ (List.getLast?_isSome.mp h1)
    obtain ⟨hzl, hzi⟩ := List.mem_filter.mp hz
    exact ⟨z, hzl, by simpa using hzi⟩
  · rintro ⟨y, hy, hyi⟩
    have h1 : (l.filter (fun y => y.id == i)) ≠ [] := by
      intro hc
      have hmem : y ∈ l.filter (fun y => y.id == i) :=
        List.mem_filter.mpr ⟨hy, by simpa using hyi⟩
      rw [hc] at hmem
      cases hmem
    have h2 : ((ModelCatalog.dedupById l).find? (fun y => y.id == i)).isSome := by
      rw [find?_dedupById]
      exact List.getLast?_isSome.mpr h1
    obtain ⟨z, hzl, hzi⟩ := List.find?_isSome.mp h2
    exact ⟨z, hzl, by simpa using hzi⟩

/-- The deduplicated catalog has pairwise-distinct ids. -/
lemma ids_dedupById_nodup (l : List ModelCatalog.Model) :
    ((ModelCatalog.dedupById l).map (fun y => y.id)).Nodup := by
  induction l using List.reverseRecOn with
  | nil => simp [ModelCatalog.dedupById]
  | append_singleton t x ih =>
    have hsnoc : ModelCatalog.dedupById (t ++ [x])
        = ModelCatalog.jsMapInsert (ModelCatalog.dedupById t) x := by
      unfold ModelCatalog.dedupById
      rw [List.foldl_append]
      rfl
    rw [hsnoc]
    unfold ModelCatalog.jsMapInsert
    by_cases hany : (ModelCatalog.dedupById t).any (fun y => y.id == x.id)
    · rw [if_pos hany]
      have hmap : ((ModelCatalog.dedupById t).map
            (fun y => if y.id == x.id then x else y)).map (fun y => y.id)
          = (ModelCatalog.dedupById t).map (fun y => y.id) := by
        rw [List.map_map]
        apply List.map_congr_left
        intro a _
        by_cases h : a.id = x.id
        · show (if a.id == x.id then x else a).id = a.id
          simp [h]
        · show (if a.id == x.id then x else a).id = a.id
          simp [h]
      rw [hmap]
      exact ih
    · rw [if_neg hany, List.map_append]
      rw [List.nodup_append]
      refine ⟨ih, by simp, ?_⟩
      simp only [List.any_eq_true, beq_iff_eq, not_exists] at hany
      intro a ha hax
      simp only [List.map_singleton, List.mem_singleton] at hax
      obtain ⟨z, hz, hzi⟩ := List.mem_map.mp ha
      exact hany z ⟨hz, hzi.trans hax⟩

/-- Generic: when at most one element satisfies `p`, `find?` returns any
satisfying member. -/
lemma find?_eq_some_of_unique {α : Type} (p : α → Bool) (l : List α) (a : α)
    (ha : a ∈ l) (hpa : p a = true) (hu : l.countP p ≤ 1) : l.find? p = some a := by
  induction l with
  | nil => cases ha
  | cons b t ih =>
    rcases List.mem_cons.mp ha with rfl | hat
    · simp [List.find?_cons, hpa]
    · by_cases hb : p b = true
      · exfalso
        have h1 : 0 < t.countP p := List.countP_pos.mpr ⟨a, hat, hpa⟩
        have h2 := List.countP_cons_of_pos p t hb
        omega
      · rw [List.countP_cons_of_neg p t hb] at hu
        simp only [List.find?_cons, Bool.not_eq_true] at hb ⊢
        rw [hb]
        exact ih hat hu

/-- The number of entries under one id in the deduplicated catalog: one
when the id occurs in the input, zero otherwise. -/
lemma countP_dedupById (l : List ModelCatalog.Model) (i : String) :
    (ModelCatalog.dedupById l).countP (fun y => y.id == i)
      = if l.any (fun y => y.id == i) then 1 else 0 := by
  have hcnt : (ModelCatalog.dedupById l).countP (fun y => y.id == i)
      = ((ModelCatalog.dedupById l).map (fun y => y.id)).count i := by
    rw [List.count, List.countP_map]
    rfl
  rw [hcnt]
  by_cases hany : l.any (fun y => y.id == i)
  · rw [if_pos hany]
    obtain ⟨y, hy, hyi⟩ := List.any_eq_true.mp hany
    have hex : ∃ z ∈ ModelCatalog.dedupById l, z.id = i :=
      (exists_id_dedupById l i).mpr ⟨y, hy, by simpa using hyi⟩
    obtain ⟨z, hz, hzi⟩ := hex
    exact List.count_eq_one_of_mem (ids_dedupById_nodup l)
      (List.mem_map.mpr ⟨z, hz, hzi⟩)
  · rw [if_neg hany]
    rw [List.count_eq_zero]
    intro hmem
    obtain ⟨z, hz, hzi⟩ := List.mem_map.mp hmem
    have : ∃ y ∈ l, y.id = i := (exists_id_dedupById l i).mp ⟨z, hz, hzi⟩
    obtain ⟨y, hy, hyi⟩ := this
    exact hany (List.any_eq_true.mpr ⟨y, hy, by simpa using hyi⟩)

/-- The sort of the models route is a permutation. -/
lemma sortModels_perm (l : List ModelCatalog.Model) :
    (ModelCatalog.sortModels l).Perm l :=
  List.mergeSort_perm l _

/-- Membership in the models-route result is membership in the
deduplicated merge. -/
lemma mem_modelsGET (litellmModels : List ModelCatalog.Model) (m : ModelCatalog.Model) :
    m ∈ ModelCatalog.modelsGET litellmModels
      ↔ m ∈ ModelCatalog.dedupById (ModelCatalog.mergedCatalog litellmModels) :=
  (sortModels_perm _).mem_iff

/-- C7: (1) a successful gateway fetch on an empty cache returns the
transformed list and stores it with the fetch time; (2) any request
within the 5-minute TTL of a populated cache returns the cached list
and issues no network fetch, whatever the network would do; (3) a
request after TTL expiry whose fetch fails returns the previously
cached list — not an empty or error result; (4) whatever the adapter
produced, the catalog served by the models route is never empty and
still carries an entry for every built-in model id. -/
theorem c7_catalog_cache :
    (∀ (st : ModelCatalog.AdapterState) (t0 : Nat)
        (data : List ModelCatalog.LiteLLMModel),
      st.cachedModels = none →
      ModelCatalog.fetchModels st true t0 (.success data)
        = (data.map ModelCatalog.transformModel,
            { cachedModels := some (data.map ModelCatalog.transformModel),
              cacheTimestamp := t0 }, true)) ∧
    (∀ (models : List ModelCatalog.Model) (t0 now : Nat)
        (net : ModelCatalog.FetchOutcome),
      now - t0 < ModelCatalog.CACHE_DURATION_MS →
      ModelCatalog.fetchModels
          { cachedModels := some models, cacheTimestamp := t0 } true now net
        = (models, { cachedModels := some models, cacheTimestamp := t0 }, false)) ∧
    (∀ (models : List ModelCatalog.Model) (t0 now : Nat) (e : JSValue),
      ¬ now - t0 < ModelCatalog.CACHE_DURATION_MS →
      ModelCatalog.fetchModels
          { cachedModels := some models, cacheTimestamp := t0 } true now (.failure e)
        = (models, { cachedModels := some models, cacheTimestamp := t0 }, true)) ∧
    (∀ litellmModels : List ModelCatalog.Model,
      ModelCatalog.modelsGET litellmModels ≠ [] ∧
      ∀ m ∈ ModelCatalog.AVAILABLE_MODELS,
        ∃ m2 ∈ ModelCatalog.modelsGET litellmModels, m2.id = m.id) := by
  refine ⟨?_, ?_, ?_, ?_⟩
  · intro st t0 data h
    simp [ModelCatalog.fetchModels, h, ModelCatalog.attemptNetworkFetch]
  · intro models t0 now net h
    simp [ModelCatalog.fetchModels, h]
  · intro models t0 now e h
    simp [ModelCatalog.fetchModels, h, ModelCatalog.attemptNetworkFetch]
  · intro ms
    have hbuiltin : ∀ m ∈ ModelCatalog.AVAILABLE_MODELS,
        m ∈ ModelCatalog.mergedCatalog ms := by
      intro m hm
      unfold ModelCatalog.mergedCatalog
      split
      · exact List.mem_append_left _ hm
      · exact hm
    constructor
    · have hgtp : ∃ b ∈ ModelCatalog.AVAILABLE_MODELS, b.id = "gpt-4-turbo-preview" := by
        decide
      obtain ⟨b, hb, hbid⟩ := hgtp
      obtain ⟨z, hz, _⟩ := (exists_id_dedupById (ModelCatalog.mergedCatalog ms)
          "gpt-4-turbo-preview").mpr ⟨b, hbuiltin b hb, hbid⟩
      have hne : ModelCatalog.dedupById (ModelCatalog.mergedCatalog ms) ≠ [] :=
        List.ne_nil_of_mem hz
      intro hc
      apply hne
      have hlen := (sortModels_perm
        (ModelCatalog.dedupById (ModelCatalog.mergedCatalog ms))).length_eq
      have h0 : (ModelCatalog.dedupById (ModelCatalog.mergedCatalog ms)).length = 0 := by
        rw [← hlen]
        exact congrArg List.length hc
      exact List.eq_nil_of_length_eq_zero h0
    · intro m hm
      obtain ⟨z, hz, hzi⟩ := (exists_id_dedupById (ModelCatalog.mergedCatalog ms)
          m.id).mpr ⟨m, hbuiltin m hm, rfl⟩
      exact ⟨z, (mem_modelsGET ms z).mpr hz, hzi⟩

/-- Witness for C7 at concrete cache states, clock values and network
outcomes. -/
theorem c7_catalog_cache_witness :
    (({ cachedModels := none, cacheTimestamp := 0 } : ModelCatalog.AdapterState).cachedModels
        = none ∧
      ModelCatalog.fetchModels { cachedModels := none, cacheTimestamp := 0 } true 5
          (.success [])
        = ([], { cachedModels := some [], cacheTimestamp := 5 }, true)) ∧
    ((100 : Nat) - 5 < ModelCatalog.CACHE_DURATION_MS ∧
      ModelCatalog.fetchModels { cachedModels := some [], cacheTimestamp := 5 } true 100
          (.failure JSValue.nonError)
        = ([], { cachedModels := some [], cacheTimestamp := 5 }, false)) ∧
    (¬ (400000 : Nat) - 5 < ModelCatalog.CACHE_DURATION_MS ∧
      ModelCatalog.fetchModels { cachedModels := some [], cacheTimestamp := 5 } true 400000
          (.failure JSValue.nonError)
        = ([], { cachedModels := some [], cacheTimestamp := 5 }, true)) ∧
    (ModelCatalog.modelsGET [] ≠ [] ∧
      ∀ m ∈ ModelCatalog.AVAILABLE_MODELS,
        ∃ m2 ∈ ModelCatalog.modelsGET [], m2.id = m.id) :=
  ⟨⟨rfl, c7_catalog_cache.1 _ 5 [] rfl⟩,
    ⟨by decide, c7_catalog_cache.2.1 [] 5 100 (.failure JSValue.nonError) (by decide)⟩,
    ⟨by decide, c7_catalog_cache.2.2.1 [] 5 400000 JSValue.nonError (by decide)⟩,
    c7_catalog_cache.2.2.2 []⟩

/-- C8 counterexample: merging the built-in catalog with a gateway entry
that reuses the id `"gpt-4"` keeps the LAST occurrence (the gateway
entry named `"dup"`), not the first occurrence (the built-in GPT-4
descriptor) — `new Map` overwrites the stored value on a duplicate key. -/
theorem c8_counterexample :
    ({ id := "gpt-4", name := "dup", provider := "litellm", contextWindow := 4096 }
        : ModelCatalog.Model)
      ∈ ModelCatalog.modelsGET
          [{ id := "gpt-4", name := "dup", provider := "litellm", contextWindow := 4096 }] ∧
    ({ id := "gpt-4", name := "GPT-4", provider := "openai", contextWindow := 8192 }
        : ModelCatalog.Model)
      ∉ ModelCatalog.modelsGET
          [{ id := "gpt-4", name := "dup", provider := "litellm", contextWindow := 4096 }] := by
  constructor
  · rw [mem_modelsGET]
    decide
  · rw [mem_modelsGET]
    decide

/-- C8 amended: the models endpoint returns exactly one entry per
duplicated id, but the entry kept is the LAST occurrence in merge order
(at the key position of the first occurrence, before sorting), not the
first. -/
theorem c8_dedup_last_wins (litellmModels : List ModelCatalog.Model) (i : String) :
    ((ModelCatalog.modelsGET litellmModels).countP (fun m => m.id == i)
        = if (ModelCatalog.mergedCatalog litellmModels).any (fun m => m.id == i)
          then 1 else 0) ∧
    (∀ m ∈ ModelCatalog.modelsGET litellmModels, m.id = i →
      ((ModelCatalog.mergedCatalog litellmModels).filter (fun y => y.id == i)).getLast?
        = some m) := by
  constructor
  · have hperm := (sortModels_perm
      (ModelCatalog.dedupById (ModelCatalog.mergedCatalog litellmModels))).countP_eq
      (fun m => m.id == i)
    calc (ModelCatalog.modelsGET litellmModels).countP (fun m => m.id == i)
        = (ModelCatalog.dedupById
            (ModelCatalog.mergedCatalog litellmModels)).countP (fun m => m.id == i) :=
          hperm
      _ = _ := countP_dedupById _ i
  · intro m hm hmi
    have hmem : m ∈ ModelCatalog.dedupById (ModelCatalog.mergedCatalog litellmModels) :=
      (mem_modelsGET _ _).mp hm
    have hcnt : (ModelCatalog.dedupById
        (ModelCatalog.mergedCatalog litellmModels)).countP (fun y => y.id == i) ≤ 1 := by
      rw [countP_dedupById]
      split <;> omega
    have hfind := find?_eq_some_of_unique (fun y => y.id == i) _ m hmem
      (by simpa using hmi) hcnt
    rw [find?_dedupById] at hfind
    exact hfind

/-- Witness for the amended C8 at the duplicated id `"gpt-4"`. -/
theorem c8_dedup_last_wins_witness :
    ((ModelCatalog.modelsGET
        [{ id := "gpt-4", name := "dup", provider := "litellm", contextWindow := 4096 }]).countP
          (fun m => m.id == "gpt-4")
        = if (ModelCatalog.mergedCatalog
              [{ id := "gpt-4", name := "dup", provider := "litellm",
                 contextWindow := 4096 }]).any (fun m => m.id == "gpt-4")
          then 1 else 0) ∧
    (({ id := "gpt-4", name := "dup", provider := "litellm", contextWindow := 4096 }
          : ModelCatalog.Model)
        ∈ ModelCatalog.modelsGET
            [{ id := "gpt-4", name := "dup", provider := "litellm", contextWindow := 4096 }] ∧
      ((ModelCatalog.mergedCatalog
          [{ id := "gpt-4", name := "dup", provider := "litellm",
             contextWindow := 4096 }]).filter (fun y => y.id == "gpt-4")).getLast?
        = some { id := "gpt-4", name := "dup", provider := "litellm",
                 contextWindow := 4096 }) := by
  have hmem : ({ id := "gpt-4", name := "dup", provider := "litellm", contextWindow := 4096 }
      : ModelCatalog.Model)
      ∈ ModelCatalog.modelsGET
          [{ id := "gpt-4", name := "dup", provider := "litellm", contextWindow := 4096 }] := by
    rw [mem_modelsGET]
    decide
  exact ⟨(c8_dedup_last_wins _ "gpt-4").1,
    hmem, (c8_dedup_last_wins _ "gpt-4").2 _ hmem rfl⟩
